import Mathlib

/-! Shallow embedding of the go-mfs repository (package mfs).

The embedding covers the parts of the source the claims are about:

* `repub.go` — the `Republisher` processing loop (`Republisher.run`),
  modelled as an explicit step function `runStep` on a `RepubState`,
  together with `Republisher.Close` modelled on a `CloseState`;
* `root.go` — `NewRoot` and `Root.updateChildEntry`;
* `file.go` — `NewFile` and `File.Open`.

Go channels, timers and goroutines are modelled by explicit state:
the two timers become `Bool` "armed" flags (receiving from a timer
channel is the event of that timer firing), the single `waiter`
channel of the run loop becomes a `Bool`, and the outcome of one call
to the user-supplied publish callback (`pubfunc`) is an oracle `Bool`
input of the step that invokes it.  Machine-level details of
`cid.Cid` are irrelevant to the claims; a CID is an `Option Nat`
(`none` models `cid.Undef`), with structural equality modelling
`Cid.Equals`.
-/

namespace GoMfs

/-- A content identifier; `val = none` models `cid.Undef`. -/
structure Cid where
  val : Option Nat
deriving DecidableEq, Repr

/-- Model of `cid.Undef`. -/
def Cid.undef : Cid := ⟨none⟩

/-- Model of `Cid.Defined()`: true for every CID other than `cid.Undef`. -/
def Cid.defined (c : Cid) : Bool := c.val.isSome

/-- Model of `Cid.Equals`: structural equality of CIDs. -/
def Cid.equals (a b : Cid) : Bool := decide (a = b)

/-- Abbreviation for a defined CID. -/
def Cid.mkDef (n : Nat) : Cid := ⟨some n⟩

/-- The state carried across iterations of `Republisher.run`
(repub.go): the `lastPublished` argument, the local `toPublish` and
`waiter` variables, and whether each of the two timers is armed. -/
structure RepubState where
  lastPublished : Cid
  toPublish : Cid
  quickArmed : Bool
  longerArmed : Bool
  waiter : Bool
deriving DecidableEq, Repr

/-- One arm of the `select` at the top of the run loop: a value
received on `rp.update`, a wait request received on
`rp.immediatePublish` (carrying the buffered update drained from
`rp.update`, when one was present), or one of the timers firing. -/
inductive REvent where
  | update (c : Cid)
  | immediate (buffered : Option Cid)
  | quickFire
  | longerFire
deriving DecidableEq, Repr

/-- The observable outcome of one iteration of the run loop: the
state for the next iteration, the value passed to `pubfunc` (when it
was invoked), and whether the waiter channel was closed. -/
structure StepResult where
  state : RepubState
  published : Option Cid
  waiterClosed : Bool
deriving DecidableEq, Repr

/-- The tail of a run-loop iteration (repub.go, after the `select`):
stop both timers, publish `toPublish` when it is defined — on failure
rearm the long timer and `continue` (the waiter is kept), on success
advance `lastPublished` and clear `toPublish` — and finally close the
waiter channel when one is held. -/
def publishPhase (s : RepubState) (pubSucceeds : Bool) : StepResult :=
  let s1 : RepubState := { s with quickArmed := false, longerArmed := false }
  if Cid.defined s1.toPublish then
    if pubSucceeds then
      let s2 : RepubState :=
        { s1 with lastPublished := s1.toPublish, toPublish := Cid.undef }
      if s2.waiter then
        { state := { s2 with waiter := false },
          published := some s1.toPublish, waiterClosed := true }
      else
        { state := s2, published := some s1.toPublish, waiterClosed := false }
    else
      { state := { s1 with longerArmed := true },
        published := some s1.toPublish, waiterClosed := false }
  else
    if s1.waiter then
      { state := { s1 with waiter := false }, published := none, waiterClosed := true }
    else
      { state := s1, published := none, waiterClosed := false }

/-- One iteration of the loop in `Republisher.run`, given the arm of
the `select` that fired and the outcome `pubSucceeds` of the callback
invocation (ignored when `pubfunc` is not invoked).

* `update c` with `c` equal to `lastPublished`: clear `toPublish` and
  `break` to the cleanup/publish tail;
* `update c` otherwise: reset the long timer only when nothing was
  pending, always reset the short timer, set `toPublish := c`, and
  `continue` (skipping the tail);
* `immediate buffered`: record the waiter, drain one buffered update
  into `toPublish` when present, clear `toPublish` when it equals
  `lastPublished`, then fall through to the tail;
* a timer firing falls through to the tail. -/
def runStep (s : RepubState) (e : REvent) (pubSucceeds : Bool) : StepResult :=
  match e with
  | .update newValue =>
    if Cid.equals s.lastPublished newValue then
      publishPhase { s with toPublish := Cid.undef } pubSucceeds
    else
      let s1 : RepubState :=
        if !(Cid.defined s.toPublish) then { s with longerArmed := true } else s
      let s2 : RepubState := { s1 with quickArmed := true }
      { state := { s2 with toPublish := newValue },
        published := none, waiterClosed := false }
  | .immediate buffered =>
    let s1 : RepubState := { s with waiter := true }
    let s2 : RepubState :=
      match buffered with
      | some c => { s1 with toPublish := c }
      | none => s1
    let s3 : RepubState :=
      if Cid.equals s2.lastPublished s2.toPublish then
        { s2 with toPublish := Cid.undef }
      else s2
    publishPhase s3 pubSucceeds
  | .quickFire => publishPhase s pubSucceeds
  | .longerFire => publishPhase s pubSucceeds

/-- Fold a sequence of `update` events (values received on
`rp.update` before any timer fires) through the run loop. -/
def applyUpdates (s : RepubState) (cs : List Cid) : RepubState :=
  match cs with
  | [] => s
  | c :: rest => applyUpdates (runStep s (.update c) true).state rest

/- Basic lemmas about the step function. -/

theorem Cid.eq_undef_of_not_defined {c : Cid} (h : Cid.defined c = false) :
    c = Cid.undef := by
  obtain ⟨v⟩ := c
  cases v with
  | none => rfl
  | some n => simp [Cid.defined] at h

theorem publishPhase_not_defined (s : RepubState) (ok : Bool)
    (h : Cid.defined s.toPublish = false) :
    publishPhase s ok =
      { state := { s with quickArmed := false, longerArmed := false, waiter := false },
        published := none, waiterClosed := s.waiter } := by
  obtain ⟨lp, tp, qa, la, w⟩ := s
  cases w <;> simp_all [publishPhase]

theorem publishPhase_defined_fail (s : RepubState)
    (h : Cid.defined s.toPublish = true) :
    publishPhase s false =
      { state := { s with quickArmed := false, longerArmed := true },
        published := some s.toPublish, waiterClosed := false } := by
  obtain ⟨lp, tp, qa, la, w⟩ := s
  simp_all [publishPhase]

theorem publishPhase_defined_ok (s : RepubState)
    (h : Cid.defined s.toPublish = true) :
    publishPhase s true =
      { state := { s with quickArmed := false, longerArmed := false,
                          lastPublished := s.toPublish, toPublish := Cid.undef,
                          waiter := false },
        published := some s.toPublish, waiterClosed := s.waiter } := by
  obtain ⟨lp, tp, qa, la, w⟩ := s
  cases w <;> simp_all [publishPhase]

theorem runStep_update_eq (s : RepubState) (c : Cid) (ok : Bool)
    (h : Cid.equals s.lastPublished c = true) :
    runStep s (.update c) ok = publishPhase { s with toPublish := Cid.undef } ok := by
  simp [runStep, h]

theorem runStep_update_ne (s : RepubState) (c : Cid) (ok : Bool)
    (h : Cid.equals s.lastPublished c = false) :
    runStep s (.update c) ok =
      { state := { s with
          longerArmed := (if Cid.defined s.toPublish then s.longerArmed else true),
          quickArmed := true, toPublish := c },
        published := none, waiterClosed := false } := by
  obtain ⟨lp, tp, qa, la, w⟩ := s
  by_cases hd : Cid.defined tp = true <;> simp_all [runStep]

theorem runStep_update_published (s : RepubState) (c : Cid) (ok : Bool) :
    (runStep s (.update c) ok).published = none := by
  by_cases h : Cid.equals s.lastPublished c = true
  · rw [runStep_update_eq s c ok h,
      publishPhase_not_defined _ ok (by simp [Cid.defined, Cid.undef])]
  · rw [runStep_update_ne s c ok (by simpa using h)]

theorem runStep_update_lastPublished (s : RepubState) (c : Cid) (ok : Bool) :
    (runStep s (.update c) ok).state.lastPublished = s.lastPublished := by
  by_cases h : Cid.equals s.lastPublished c = true
  · rw [runStep_update_eq s c ok h,
      publishPhase_not_defined _ ok (by simp [Cid.defined, Cid.undef])]
  · rw [runStep_update_ne s c ok (by simpa using h)]

theorem runStep_quickFire (s : RepubState) (ok : Bool) :
    runStep s .quickFire ok = publishPhase s ok := rfl

theorem runStep_longerFire (s : RepubState) (ok : Bool) :
    runStep s .longerFire ok = publishPhase s ok := rfl

theorem publishPhase_published_undef (t : RepubState) (ok : Bool)
    (h : t.toPublish = Cid.undef) :
    (publishPhase t ok).published = none := by
  rw [publishPhase_not_defined t ok (by simp [h, Cid.defined, Cid.undef])]

theorem publishPhase_published_defined (t : RepubState) (ok : Bool)
    (h : Cid.defined t.toPublish = true) :
    (publishPhase t ok).published = some t.toPublish := by
  cases ok
  · rw [publishPhase_defined_fail t h]
  · rw [publishPhase_defined_ok t h]

/-- C1 (amended): when the run loop receives an `Update` whose value equals
`lastPublished`, the pending slot is cleared to "none" unconditionally —
a previously pending value, even one differing from `lastPublished`, is
discarded — this step invokes no publish, `lastPublished` is unchanged,
and the following timer firings publish nothing. -/
theorem repub_noop_update (s : RepubState) (c : Cid) (ok ok2 : Bool)
    (h : Cid.equals s.lastPublished c = true) :
    (runStep s (.update c) ok).state.toPublish = Cid.undef
    ∧ (runStep s (.update c) ok).published = none
    ∧ (runStep s (.update c) ok).state.lastPublished = s.lastPublished
    ∧ (runStep (runStep s (.update c) ok).state .quickFire ok2).published = none
    ∧ (runStep (runStep s (.update c) ok).state .longerFire ok2).published = none := by
  rw [runStep_update_eq s c ok h,
    publishPhase_not_defined _ ok (by simp [Cid.defined, Cid.undef])]
  refine ⟨rfl, rfl, rfl, ?_, ?_⟩
  · rw [runStep_quickFire]
    exact publishPhase_published_undef _ ok2 rfl
  · rw [runStep_longerFire]
    exact publishPhase_published_undef _ ok2 rfl

/-- C1 counterexample: in the state with `lastPublished` = CID 1 and the
differing value CID 2 pending, receiving `Update`(CID 1) clears the
pending slot — the pending CID 2 is not preserved — and the following
timer firings publish nothing, so CID 2 is never published. -/
theorem repub_noop_update_counterexample :
    (runStep { lastPublished := Cid.mkDef 1, toPublish := Cid.mkDef 2,
               quickArmed := true, longerArmed := true, waiter := false }
        (.update (Cid.mkDef 1)) true).state.toPublish ≠ Cid.mkDef 2
    ∧ (runStep { lastPublished := Cid.mkDef 1, toPublish := Cid.mkDef 2,
                 quickArmed := true, longerArmed := true, waiter := false }
        (.update (Cid.mkDef 1)) true).state.toPublish = Cid.undef
    ∧ (runStep (runStep { lastPublished := Cid.mkDef 1, toPublish := Cid.mkDef 2,
                          quickArmed := true, longerArmed := true, waiter := false }
          (.update (Cid.mkDef 1)) true).state .quickFire true).published = none
    ∧ (runStep (runStep { lastPublished := Cid.mkDef 1, toPublish := Cid.mkDef 2,
                          quickArmed := true, longerArmed := true, waiter := false }
          (.update (Cid.mkDef 1)) true).state .longerFire true).published = none := by
  decide

/-- C1 witness: the amended statement evaluated at a concrete state. -/
theorem repub_noop_update_witness :
    Cid.equals (Cid.mkDef 0) (Cid.mkDef 0) = true
    ∧ ((runStep ⟨Cid.mkDef 0, Cid.undef, false, false, false⟩
          (.update (Cid.mkDef 0)) true).state.toPublish = Cid.undef
       ∧ (runStep ⟨Cid.mkDef 0, Cid.undef, false, false, false⟩
            (.update (Cid.mkDef 0)) true).published = none
       ∧ (runStep ⟨Cid.mkDef 0, Cid.undef, false, false, false⟩
            (.update (Cid.mkDef 0)) true).state.lastPublished = Cid.mkDef 0
       ∧ (runStep (runStep ⟨Cid.mkDef 0, Cid.undef, false, false, false⟩
            (.update (Cid.mkDef 0)) true).state .quickFire true).published = none
       ∧ (runStep (runStep ⟨Cid.mkDef 0, Cid.undef, false, false, false⟩
            (.update (Cid.mkDef 0)) true).state .longerFire true).published = none) :=
  ⟨by decide, repub_noop_update _ _ true true (by decide)⟩

/-- C5: submitting a value equal to the last published value never triggers
the publish callback: the update step itself invokes no publish, the pending
slot afterwards is empty so the following timer firings invoke no publish,
and a `WaitPub` request that drains such a buffered value invokes none
either. -/
theorem repub_idempotent_update (s : RepubState) (c : Cid) (ok ok2 : Bool)
    (h : Cid.equals s.lastPublished c = true) :
    (runStep s (.update c) ok).published = none
    ∧ (runStep (runStep s (.update c) ok).state .quickFire ok2).published = none
    ∧ (runStep (runStep s (.update c) ok).state .longerFire ok2).published = none
    ∧ (runStep s (.immediate (some c)) ok).published = none := by
  rw [runStep_update_eq s c ok h,
    publishPhase_not_defined _ ok (by simp [Cid.defined, Cid.undef])]
  refine ⟨rfl, ?_, ?_, ?_⟩
  · rw [runStep_quickFire]
    exact publishPhase_published_undef _ ok2 rfl
  · rw [runStep_longerFire]
    exact publishPhase_published_undef _ ok2 rfl
  · have hstep : runStep s (.immediate (some c)) ok
        = publishPhase { s with waiter := true, toPublish := Cid.undef } ok := by
      simp [runStep, h]
    rw [hstep]
    exact publishPhase_published_undef _ ok rfl

/-- C5 witness: the statement evaluated at a concrete state. -/
theorem repub_idempotent_update_witness :
    Cid.equals (Cid.mkDef 3) (Cid.mkDef 3) = true
    ∧ ((runStep ⟨Cid.mkDef 3, Cid.mkDef 4, true, true, false⟩
          (.update (Cid.mkDef 3)) true).published = none
       ∧ (runStep (runStep ⟨Cid.mkDef 3, Cid.mkDef 4, true, true, false⟩
            (.update (Cid.mkDef 3)) true).state .quickFire false).published = none
       ∧ (runStep (runStep ⟨Cid.mkDef 3, Cid.mkDef 4, true, true, false⟩
            (.update (Cid.mkDef 3)) true).state .longerFire false).published = none
       ∧ (runStep ⟨Cid.mkDef 3, Cid.mkDef 4, true, true, false⟩
            (.immediate (some (Cid.mkDef 3))) true).published = none) :=
  ⟨by decide, repub_idempotent_update _ _ true false (by decide)⟩

/-- C2: when a publish attempt for the pending value fails, the pending
slot is not cleared, `lastPublished` does not advance, the long timer is
rearmed (and the short one is not), so the retry happens at the long-timer
cadence; and when a newer differing update arrives before the retry, the
retry invokes the callback with that newest value, not the failed one. -/
theorem repub_publish_failure_retry (s : RepubState) (e : REvent) (w : Cid)
    (ok2 ok3 : Bool)
    (hp : Cid.defined s.toPublish = true)
    (he : e = REvent.quickFire ∨ e = REvent.longerFire)
    (hw : Cid.equals s.lastPublished w = false)
    (hwd : Cid.defined w = true) :
    (runStep s e false).published = some s.toPublish
    ∧ (runStep s e false).state.toPublish = s.toPublish
    ∧ (runStep s e false).state.lastPublished = s.lastPublished
    ∧ (runStep s e false).state.longerArmed = true
    ∧ (runStep s e false).state.quickArmed = false
    ∧ (runStep (runStep s e false).state (.update w) ok3).published = none
    ∧ (runStep (runStep (runStep s e false).state (.update w) ok3).state
         .longerFire ok2).published = some w := by
  have hrs : runStep s e false = publishPhase s false := by
    rcases he with rfl | rfl <;> rfl
  have h1 : runStep s e false =
      { state := { s with quickArmed := false, longerArmed := true },
        published := some s.toPublish, waiterClosed := false } := by
    rw [hrs, publishPhase_defined_fail s hp]
  rw [h1]
  refine ⟨rfl, rfl, rfl, rfl, rfl, ?_, ?_⟩
  · exact runStep_update_published _ w ok3
  · have hw2 : Cid.equals
        (RepubState.lastPublished { s with quickArmed := false, longerArmed := true }) w
        = false := hw
    rw [runStep_update_ne _ w ok3 hw2, runStep_longerFire]
    exact publishPhase_published_defined _ ok2 hwd

/-- C2 witness: the statement evaluated at a concrete state and trace. -/
theorem repub_publish_failure_retry_witness :
    Cid.defined (RepubState.toPublish ⟨Cid.mkDef 1, Cid.mkDef 2, true, true, false⟩) = true
    ∧ (REvent.quickFire = REvent.quickFire ∨ REvent.quickFire = REvent.longerFire)
    ∧ Cid.equals (Cid.mkDef 1) (Cid.mkDef 7) = false
    ∧ Cid.defined (Cid.mkDef 7) = true
    ∧ ((runStep ⟨Cid.mkDef 1, Cid.mkDef 2, true, true, false⟩ .quickFire false).published
         = some (RepubState.toPublish ⟨Cid.mkDef 1, Cid.mkDef 2, true, true, false⟩)
       ∧ (runStep ⟨Cid.mkDef 1, Cid.mkDef 2, true, true, false⟩ .quickFire false).state.toPublish
         = RepubState.toPublish ⟨Cid.mkDef 1, Cid.mkDef 2, true, true, false⟩
       ∧ (runStep ⟨Cid.mkDef 1, Cid.mkDef 2, true, true, false⟩ .quickFire false).state.lastPublished
         = Cid.mkDef 1
       ∧ (runStep ⟨Cid.mkDef 1, Cid.mkDef 2, true, true, false⟩ .quickFire false).state.longerArmed = true
       ∧ (runStep ⟨Cid.mkDef 1, Cid.mkDef 2, true, true, false⟩ .quickFire false).state.quickArmed = false
       ∧ (runStep (runStep ⟨Cid.mkDef 1, Cid.mkDef 2, true, true, false⟩ .quickFire false).state
            (.update (Cid.mkDef 7)) true).published = none
       ∧ (runStep (runStep (runStep ⟨Cid.mkDef 1, Cid.mkDef 2, true, true, false⟩ .quickFire false).state
            (.update (Cid.mkDef 7)) true).state .longerFire true).published = some (Cid.mkDef 7)) :=
  ⟨by decide, by decide, by decide, by decide,
    repub_publish_failure_retry _ _ _ true true (by decide) (Or.inl rfl) (by decide) (by decide)⟩

theorem applyUpdates_nil (s : RepubState) : applyUpdates s [] = s := rfl

theorem applyUpdates_cons (s : RepubState) (c : Cid) (cs : List Cid) :
    applyUpdates s (c :: cs) = applyUpdates (runStep s (.update c) true).state cs := rfl

theorem applyUpdates_latest (s : RepubState) (c : Cid) (cs : List Cid)
    (h : Cid.equals s.lastPublished c = false)
    (hcs : ∀ x ∈ cs, Cid.equals s.lastPublished x = false) :
    (applyUpdates s (c :: cs)).toPublish = cs.getLastD c
    ∧ (applyUpdates s (c :: cs)).lastPublished = s.lastPublished := by
  induction cs generalizing s c with
  | nil =>
    rw [applyUpdates_cons, applyUpdates_nil, runStep_update_ne s c true h]
    exact ⟨rfl, rfl⟩
  | cons d rest ih =>
    rw [applyUpdates_cons]
    have hlp : (runStep s (.update c) true).state.lastPublished = s.lastPublished :=
      runStep_update_lastPublished s c true
    have hd : Cid.equals (runStep s (.update c) true).state.lastPublished d = false := by
      rw [hlp]; exact hcs d (List.mem_cons_self d rest)
    have hrest :
        ∀ x ∈ rest, Cid.equals (runStep s (.update c) true).state.lastPublished x = false := by
      intro x hx; rw [hlp]; exact hcs x (List.mem_cons_of_mem d hx)
    obtain ⟨h1, h2⟩ := ih _ _ hd hrest
    rw [List.getLastD_cons]
    exact ⟨h1, h2.trans hlp⟩

/-- C3: an `Update` whose value differs from `lastPublished` arms the long
timer only when no value was already pending, always rearms the short
timer, and replaces the pending value; a whole burst of such updates
produces no publish by itself, leaves only the latest value pending, and
the next timer firing publishes exactly that latest value once —
intermediate values are never individually published and a further firing
publishes nothing. -/
theorem repub_update_coalescing (s : RepubState) (c : Cid) (ok : Bool) (cs : List Cid)
    (h : Cid.equals s.lastPublished c = false)
    (hcs : ∀ x ∈ cs, Cid.equals s.lastPublished x = false)
    (hdef : Cid.defined (cs.getLastD c) = true) :
    (runStep s (.update c) ok).state.toPublish = c
    ∧ (runStep s (.update c) ok).state.quickArmed = true
    ∧ (runStep s (.update c) ok).state.longerArmed
        = (if Cid.defined s.toPublish then s.longerArmed else true)
    ∧ (runStep s (.update c) ok).published = none
    ∧ (applyUpdates s (c :: cs)).toPublish = cs.getLastD c
    ∧ (runStep (applyUpdates s (c :: cs)) .quickFire true).published
        = some (cs.getLastD c)
    ∧ (runStep (runStep (applyUpdates s (c :: cs)) .quickFire true).state
         .longerFire true).published = none := by
  obtain ⟨hA, hB⟩ := applyUpdates_latest s c cs h hcs
  have hdef2 : Cid.defined (applyUpdates s (c :: cs)).toPublish = true := by
    rw [hA]; exact hdef
  rw [runStep_update_ne s c ok h]
  refine ⟨rfl, rfl, rfl, rfl, hA, ?_, ?_⟩
  · rw [runStep_quickFire, publishPhase_published_defined _ true hdef2, hA]
  · rw [runStep_quickFire, publishPhase_defined_ok _ hdef2, runStep_longerFire]
    exact publishPhase_published_undef _ true rfl

/-- C3 witness: the statement evaluated at a concrete state and burst. -/
theorem repub_update_coalescing_witness :
    Cid.equals (Cid.mkDef 0) (Cid.mkDef 1) = false
    ∧ (∀ x ∈ [Cid.mkDef 2, Cid.mkDef 3], Cid.equals (Cid.mkDef 0) x = false)
    ∧ Cid.defined ([Cid.mkDef 2, Cid.mkDef 3].getLastD (Cid.mkDef 1)) = true
    ∧ ((runStep ⟨Cid.mkDef 0, Cid.undef, false, false, false⟩
          (.update (Cid.mkDef 1)) true).state.toPublish = Cid.mkDef 1
       ∧ (runStep ⟨Cid.mkDef 0, Cid.undef, false, false, false⟩
            (.update (Cid.mkDef 1)) true).state.quickArmed = true
       ∧ (runStep ⟨Cid.mkDef 0, Cid.undef, false, false, false⟩
            (.update (Cid.mkDef 1)) true).state.longerArmed
          = (if Cid.defined (RepubState.toPublish ⟨Cid.mkDef 0, Cid.undef, false, false, false⟩)
             then RepubState.longerArmed ⟨Cid.mkDef 0, Cid.undef, false, false, false⟩ else true)
       ∧ (runStep ⟨Cid.mkDef 0, Cid.undef, false, false, false⟩
            (.update (Cid.mkDef 1)) true).published = none
       ∧ (applyUpdates ⟨Cid.mkDef 0, Cid.undef, false, false, false⟩
            [Cid.mkDef 1, Cid.mkDef 2, Cid.mkDef 3]).toPublish
          = [Cid.mkDef 2, Cid.mkDef 3].getLastD (Cid.mkDef 1)
       ∧ (runStep (applyUpdates ⟨Cid.mkDef 0, Cid.undef, false, false, false⟩
            [Cid.mkDef 1, Cid.mkDef 2, Cid.mkDef 3]) .quickFire true).published
          = some ([Cid.mkDef 2, Cid.mkDef 3].getLastD (Cid.mkDef 1))
       ∧ (runStep (runStep (applyUpdates ⟨Cid.mkDef 0, Cid.undef, false, false, false⟩
            [Cid.mkDef 1, Cid.mkDef 2, Cid.mkDef 3]) .quickFire true).state
            .longerFire true).published = none) :=
  ⟨by decide, by decide, by decide,
    repub_update_coalescing _ _ true [Cid.mkDef 2, Cid.mkDef 3]
      (by decide) (by decide) (by decide)⟩

theorem publishPhase_waiter_release (s : RepubState) (ok : Bool)
    (hw : (publishPhase s ok).waiterClosed = true) :
    (ok = true
     ∧ (publishPhase s ok).published = some ((publishPhase s ok).state.lastPublished))
    ∨ ((publishPhase s ok).published = none
       ∧ (publishPhase s ok).state.toPublish = Cid.undef
       ∧ (publishPhase s ok).state.lastPublished = s.lastPublished) := by
  by_cases hd : Cid.defined s.toPublish = true
  · cases ok
    · rw [publishPhase_defined_fail s hd] at hw
      simp at hw
    · rw [publishPhase_defined_ok s hd]
      exact Or.inl ⟨rfl, rfl⟩
  · have hd' : Cid.defined s.toPublish = false := by simpa using hd
    rw [publishPhase_not_defined s ok hd']
    exact Or.inr ⟨rfl, Cid.eq_undef_of_not_defined hd', rfl⟩

theorem runStep_immediate_toPhase (s : RepubState) (buffered : Option Cid) (ok : Bool) :
    ∃ t : RepubState, runStep s (.immediate buffered) ok = publishPhase t ok
      ∧ t.lastPublished = s.lastPublished := by
  cases buffered with
  | none =>
    by_cases h : Cid.equals s.lastPublished s.toPublish = true
    · exact ⟨{ s with waiter := true, toPublish := Cid.undef },
        by simp [runStep, h], rfl⟩
    · refine ⟨{ s with waiter := true }, ?_, rfl⟩
      simp only [runStep]
      rw [if_neg (by simpa using h)]
  | some c =>
    by_cases h : Cid.equals s.lastPublished c = true
    · exact ⟨{ s with waiter := true, toPublish := Cid.undef },
        by simp [runStep, h], rfl⟩
    · refine ⟨{ s with waiter := true, toPublish := c }, ?_, rfl⟩
      simp only [runStep]
      rw [if_neg (by simpa using h)]

/-- C4: a waiter is released only when either the publish callback has just
returned successfully for the current candidate value — which then is the
new `lastPublished` — or no publish was attempted because nothing was
pending and nothing differing from `lastPublished` had been submitted; in
particular a waiter is never released on a step whose callback invocation
failed. -/
theorem repub_waiter_release (s : RepubState) (e : REvent) (ok : Bool)
    (hw : (runStep s e ok).waiterClosed = true) :
    (ok = true
     ∧ (runStep s e ok).published = some ((runStep s e ok).state.lastPublished))
    ∨ ((runStep s e ok).published = none
       ∧ (runStep s e ok).state.toPublish = Cid.undef
       ∧ (runStep s e ok).state.lastPublished = s.lastPublished) := by
  cases e with
  | update c =>
    by_cases h : Cid.equals s.lastPublished c = true
    · rw [runStep_update_eq s c ok h] at hw ⊢
      exact publishPhase_waiter_release _ ok hw
    · rw [runStep_update_ne s c ok (by simpa using h)] at hw
      simp at hw
  | immediate buffered =>
    obtain ⟨t, ht, hlp⟩ := runStep_immediate_toPhase s buffered ok
    rw [ht] at hw ⊢
    rw [← hlp]
    exact publishPhase_waiter_release t ok hw
  | quickFire =>
    rw [runStep_quickFire] at hw ⊢
    exact publishPhase_waiter_release s ok hw
  | longerFire =>
    rw [runStep_longerFire] at hw ⊢
    exact publishPhase_waiter_release s ok hw

/-- C4 witness: the statement evaluated at a concrete releasing step. -/
theorem repub_waiter_release_witness :
    (runStep ⟨Cid.mkDef 1, Cid.mkDef 2, false, false, true⟩ .quickFire true).waiterClosed = true
    ∧ ((true = true
        ∧ (runStep ⟨Cid.mkDef 1, Cid.mkDef 2, false, false, true⟩ .quickFire true).published
          = some ((runStep ⟨Cid.mkDef 1, Cid.mkDef 2, false, false, true⟩
              .quickFire true).state.lastPublished))
       ∨ ((runStep ⟨Cid.mkDef 1, Cid.mkDef 2, false, false, true⟩ .quickFire true).published = none
          ∧ (runStep ⟨Cid.mkDef 1, Cid.mkDef 2, false, false, true⟩
              .quickFire true).state.toPublish = Cid.undef
          ∧ (runStep ⟨Cid.mkDef 1, Cid.mkDef 2, false, false, true⟩
              .quickFire true).state.lastPublished = Cid.mkDef 1)) :=
  ⟨by decide, repub_waiter_release _ .quickFire true (by decide)⟩

/-! Model of `Republisher.Close` (repub.go).

`Close` runs `rp.once.Do { WaitPub; cancel }` and then waits on a
`select` over the caller's context and `rp.stopped`.  The run loop is
`for ctx.Err() == nil { ... }` with `defer close(rp.stopped)`, so once
the context is cancelled the loop exits and `stopped` is closed; this
exit is modelled by the separate step `runLoopObserveCancel`.  When
both `stopped` and the caller's context are ready the Go `select`
picks either; the model resolves `stopped` first, which only narrows
the claim's "or the caller's context is done". -/

/-- Shutdown-related state shared by `Republisher.Close` and the run
loop: whether `rp.once` has consumed its body, whether the run context
has been cancelled, and whether `rp.stopped` is closed. -/
structure CloseState where
  onceUsed : Bool
  cancelled : Bool
  stopped : Bool
deriving DecidableEq, Repr

/-- Outcome of one `Close` call: `ok` (returned nil after `stopped`),
`ctxErr` (returned the caller context's error), or `blockedWait`
(still blocked in the final `select`, i.e. the call has not returned). -/
inductive CloseOutcome where
  | ok
  | ctxErr
  | blockedWait
deriving DecidableEq, Repr

/-- Result of one `Republisher.Close` call: the state afterwards,
whether this call executed the `once` body (the wait-for-publish and
cancellation sequence), and how the final wait resolved. -/
structure CloseCallResult where
  state : CloseState
  ranOnceBody : Bool
  outcome : CloseOutcome
deriving DecidableEq, Repr

/-- The run loop observing cancellation: `for ctx.Err() == nil` exits
and the deferred `close(rp.stopped)` runs. -/
def runLoopObserveCancel (s : CloseState) : CloseState :=
  if s.cancelled then { s with stopped := true } else s

/-- One call to `Republisher.Close` (repub.go): the `once` body runs
only on the first call (calling `WaitPub` and then `cancel`), and the
call then waits for `rp.stopped` or the caller's context. -/
def repubClose (s : CloseState) (ctxDone : Bool) : CloseCallResult :=
  let p : CloseState × Bool :=
    if s.onceUsed then (s, false)
    else ({ s with onceUsed := true, cancelled := true }, true)
  { state := p.1
    ranOnceBody := p.2
    outcome :=
      if p.1.stopped then CloseOutcome.ok
      else if ctxDone then CloseOutcome.ctxErr
      else CloseOutcome.blockedWait }

/-- C10: `Republisher.Close` is repeat-safe: the first call (and only
the first) executes the wait-for-publish and cancellation sequence;
once the run loop has observed the cancellation and stopped, any later
call returns success without redoing that sequence; and any call
returns success only with the loop stopped, or the context error only
with the caller's context done. -/
theorem repub_close_spec (s s2 : CloseState) (d1 d2 d3 : Bool)
    (h : s.onceUsed = false) :
    (repubClose s d1).ranOnceBody = true
    ∧ (repubClose s d1).state.cancelled = true
    ∧ (repubClose (repubClose s d1).state d2).ranOnceBody = false
    ∧ (repubClose (runLoopObserveCancel (repubClose s d1).state) d2).outcome
        = CloseOutcome.ok
    ∧ (repubClose (runLoopObserveCancel (repubClose s d1).state) d2).ranOnceBody
        = false
    ∧ ((repubClose s2 d3).outcome = CloseOutcome.ok → s2.stopped = true)
    ∧ ((repubClose s2 d3).outcome = CloseOutcome.ctxErr → d3 = true) := by
  obtain ⟨o, c, st⟩ := s
  obtain ⟨o2, c2, st2⟩ := s2
  subst h
  revert d1 d2 d3 c st o2 c2 st2
  decide

/-- C10 witness: the statement evaluated on a fresh republisher state. -/
theorem repub_close_spec_witness :
    CloseState.onceUsed ⟨false, false, false⟩ = false
    ∧ ((repubClose ⟨false, false, false⟩ false).ranOnceBody = true
       ∧ (repubClose ⟨false, false, false⟩ false).state.cancelled = true
       ∧ (repubClose (repubClose ⟨false, false, false⟩ false).state false).ranOnceBody = false
       ∧ (repubClose (runLoopObserveCancel
            (repubClose ⟨false, false, false⟩ false).state) false).outcome = CloseOutcome.ok
       ∧ (repubClose (runLoopObserveCancel
            (repubClose ⟨false, false, false⟩ false).state) false).ranOnceBody = false
       ∧ ((repubClose ⟨true, true, true⟩ false).outcome = CloseOutcome.ok
            → CloseState.stopped ⟨true, true, true⟩ = true)
       ∧ ((repubClose ⟨true, true, true⟩ false).outcome = CloseOutcome.ctxErr
            → false = true)) :=
  ⟨rfl, repub_close_spec ⟨false, false, false⟩ ⟨true, true, true⟩ false false false rfl⟩

/-! Model of `Root` (root.go).

The unixfs node types are those of `go-unixfs` (`ft.TRaw`, `ft.TFile`,
`ft.TDirectory`, `ft.TMetadata`, `ft.TSymlink`, `ft.THAMTShard`).  A
stored protobuf node is modelled by its unixfs payload — `none` when
`ft.FSNodeFromBytes` would fail on its data — and its CID. -/

/-- The unixfs node types (`go-unixfs`). -/
inductive UnixfsType where
  | tRaw
  | tFile
  | tDirectory
  | tMetadata
  | tSymlink
  | tHAMTShard
deriving DecidableEq, Repr

/-- A `dag.ProtoNode` as seen by `NewRoot`: the unixfs type decoded
from its data (`none` when `ft.FSNodeFromBytes` fails) and its CID. -/
structure PNode where
  data : Option UnixfsType
  nodeCid : Nat
deriving DecidableEq, Repr

/-- The `Root` as far as the claims observe it: `some h` when a
Republisher was started with `lastPublished` seeded to `h`, `none`
when no publish callback was given and no Republisher exists. -/
structure RootModel where
  repubLast : Option Nat
deriving DecidableEq, Repr

/-- Modelled from the spec: `NewDirectory` (directory.go, not part of
the provided sources) wraps the already-decoded directory node; the
spec gives it no failure condition of its own, so it is modelled as
always succeeding. -/
def NewDirectory (node : PNode) : Except String Unit := .ok ()

/-- Model of `NewRoot` (root.go): decode the node's data, require a
directory-typed node (`ft.TDirectory` or `ft.THAMTShard`), build the
root directory, and start a Republisher seeded with the node's CID
exactly when a publish callback is supplied. -/
def NewRoot (node : PNode) (pfPresent : Bool) : Except String RootModel :=
  match node.data with
  | none => .error "node data was not unixfs node"
  | some t =>
    match t with
    | .tDirectory | .tHAMTShard =>
      match NewDirectory node with
      | .error e => .error e
      | .ok _ =>
        .ok { repubLast := if pfPresent then some node.nodeCid else none }
    | _ => .error "root must be a unixfs directory"

/-- C7: `NewRoot` succeeds exactly when the node decodes to a
directory-typed unixfs node, and on success the Republisher exists and
is seeded with the node's CID exactly when a publish callback is
given. -/
theorem newRoot_spec (node : PNode) (pfPresent : Bool) :
    ((NewRoot node pfPresent).isOk = true
      ↔ (node.data = some .tDirectory ∨ node.data = some .tHAMTShard))
    ∧ (∀ r : RootModel, NewRoot node pfPresent = .ok r →
        r.repubLast = (if pfPresent then some node.nodeCid else none)) := by
  obtain ⟨d, h⟩ := node
  constructor
  · rcases d with _ | t
    · simp [NewRoot, Except.isOk, Except.toBool]
    · cases t <;> simp [NewRoot, NewDirectory, Except.isOk, Except.toBool]
  · intro r hr
    rcases d with _ | t
    · simp [NewRoot] at hr
    · cases t <;> simp_all [NewRoot, NewDirectory] <;> rw [← hr]

/-- C7 witness: the statement evaluated at a directory node with and
without a publish callback, via two applications at concrete inputs. -/
theorem newRoot_spec_witness :
    (((NewRoot ⟨some .tDirectory, 7⟩ true).isOk = true
       ↔ (PNode.data ⟨some .tDirectory, 7⟩ = some .tDirectory
          ∨ PNode.data ⟨some .tDirectory, 7⟩ = some .tHAMTShard))
     ∧ (∀ r : RootModel, NewRoot ⟨some .tDirectory, 7⟩ true = .ok r →
         r.repubLast = (if true then some 7 else none)))
    ∧ (((NewRoot ⟨some .tFile, 7⟩ false).isOk = true
       ↔ (PNode.data ⟨some .tFile, 7⟩ = some .tDirectory
          ∨ PNode.data ⟨some .tFile, 7⟩ = some .tHAMTShard))
     ∧ (∀ r : RootModel, NewRoot ⟨some .tFile, 7⟩ false = .ok r →
         r.repubLast = (if false then some 7 else none))) :=
  ⟨newRoot_spec ⟨some .tDirectory, 7⟩ true, newRoot_spec ⟨some .tFile, 7⟩ false⟩

/-- The information `Root.updateChildEntry` receives from a child:
its name and (the CID of) its new node. -/
structure ChildC where
  name : String
  nodeCid : Nat
deriving DecidableEq, Repr

/-- The DAG service's contents, as a list of stored CIDs. -/
structure StoreSt where
  stored : List Nat
deriving DecidableEq, Repr

/-- Model of `dagService.Add`: with a failure oracle; on success the
node's CID is in the store. -/
def dagAdd (addFails : Bool) (st : StoreSt) (c : Nat) : Except String StoreSt :=
  if addFails then .error "add failed" else .ok { stored := c :: st.stored }

/-- Observable outcome of one `Root.updateChildEntry` call: the store
afterwards, the CIDs fed to the Republisher by the call (in order), and
the returned error if any. -/
structure UpdateChildResult where
  store : StoreSt
  repubUpdates : List Nat
  err : Option String
deriving DecidableEq, Repr

/-- Model of `Root.updateChildEntry` (root.go): first `Add` the child's
node to the DAG service; on failure return the error without touching
the Republisher; on success feed the node's CID to the Republisher when
one is present. -/
def updateChildEntry (addFails repubPresent : Bool) (st : StoreSt)
    (c : ChildC) : UpdateChildResult :=
  match dagAdd addFails st c.nodeCid with
  | .error e => { store := st, repubUpdates := [], err := some e }
  | .ok stNew =>
    { store := stNew,
      repubUpdates := if repubPresent then [c.nodeCid] else [],
      err := none }

/-- C6: `Root.updateChildEntry` stores the child's node before any
Republisher update: when `Add` fails the error is returned and the
Republisher receives nothing; when `Add` succeeds every CID fed to the
Republisher is stored, and the Republisher receives exactly the child's
CID when present. -/
theorem updateChildEntry_spec (addFails repubPresent : Bool) (st : StoreSt)
    (c : ChildC) :
    (addFails = true →
      (updateChildEntry addFails repubPresent st c).err.isSome = true
      ∧ (updateChildEntry addFails repubPresent st c).repubUpdates = []
      ∧ (updateChildEntry addFails repubPresent st c).store = st)
    ∧ (addFails = false →
      (updateChildEntry addFails repubPresent st c).err = none
      ∧ (∀ x ∈ (updateChildEntry addFails repubPresent st c).repubUpdates,
          x ∈ (updateChildEntry addFails repubPresent st c).store.stored)
      ∧ (updateChildEntry addFails repubPresent st c).repubUpdates
        = (if repubPresent then [c.nodeCid] else [])) := by
  cases addFails with
  | true => exact ⟨fun _ => ⟨rfl, rfl, rfl⟩, fun hcon => by simp at hcon⟩
  | false =>
    refine ⟨fun hcon => by simp at hcon, fun _ => ⟨rfl, ?_, rfl⟩⟩
    cases repubPresent with
    | true =>
      intro x hx
      simp [updateChildEntry, dagAdd] at hx
      simp [updateChildEntry, dagAdd, hx]
    | false =>
      intro x hx
      simp [updateChildEntry, dagAdd] at hx

/-- C6 witness: the statement evaluated at a concrete store and child. -/
theorem updateChildEntry_spec_witness :
    ((false = true →
      (updateChildEntry false true ⟨[5]⟩ ⟨"a", 9⟩).err.isSome = true
      ∧ (updateChildEntry false true ⟨[5]⟩ ⟨"a", 9⟩).repubUpdates = []
      ∧ (updateChildEntry false true ⟨[5]⟩ ⟨"a", 9⟩).store = ⟨[5]⟩)
    ∧ (false = false →
      (updateChildEntry false true ⟨[5]⟩ ⟨"a", 9⟩).err = none
      ∧ (∀ x ∈ (updateChildEntry false true ⟨[5]⟩ ⟨"a", 9⟩).repubUpdates,
          x ∈ (updateChildEntry false true ⟨[5]⟩ ⟨"a", 9⟩).store.stored)
      ∧ (updateChildEntry false true ⟨[5]⟩ ⟨"a", 9⟩).repubUpdates
        = (if true then [ChildC.nodeCid ⟨"a", 9⟩] else []))) :=
  updateChildEntry_spec false true ⟨[5]⟩ ⟨"a", 9⟩

/-! Model of `File` (file.go).

`File.Open` inspects the file's root node: a `dag.RawNode` skips the
type check, a `dag.ProtoNode` has its data decoded by
`ft.FSNodeFromBytes` (modelled `none` when that fails) and its unixfs
type checked.  `NewFile` looks only at the node's CID prefix version.
The external `mod.NewDagModifier` over the chunking layer is out of
scope per the spec and modelled as succeeding. -/

/-- The shape of an `ipld.Node` as far as `File` inspects it: a
protobuf node with its decoded unixfs type (`none` when
`ft.FSNodeFromBytes` fails on its data), or a raw node. -/
inductive NodeShape where
  | protoNode (data : Option UnixfsType)
  | rawNode
deriving DecidableEq, Repr

/-- An `ipld.Node` handed to the `File` layer: its shape and the
version of its CID's prefix. -/
structure IpldNodeM where
  shape : NodeShape
  cidVersion : Nat
deriving DecidableEq, Repr

/-- The `Flags` structure of file descriptors. -/
structure Flags where
  read : Bool
  write : Bool
  sync : Bool
deriving DecidableEq, Repr

/-- Outcome of `File.Open`: a descriptor carrying the flags, or one of
the error returns of the source (`"file opened for neither reading nor
writing"`, a `ft.FSNodeFromBytes` decode error, `"unsupported fsnode
type for 'file'"`, `"symlinks not yet supported"`). -/
inductive OpenResult where
  | descriptor (flags : Flags)
  | errNoMode
  | errDecode
  | errUnsupported
  | errSymlink
deriving DecidableEq, Repr

/-- Whether an `OpenResult` is an error return. -/
def OpenResult.isErr (r : OpenResult) : Bool :=
  match r with
  | .descriptor _ => false
  | _ => true

/-- The body of `File.Open` after the mode check (file.go): raw nodes
pass, protobuf nodes must decode to unixfs type `TFile` or `TRaw`, with
a dedicated error for `TSymlink`; the descriptor is built over the
external DAG modifier. -/
def openCheck (node : IpldNodeM) (flags : Flags) : OpenResult :=
  match node.shape with
  | .rawNode => .descriptor flags
  | .protoNode data =>
    match data with
    | none => .errDecode
    | some t =>
      match t with
      | .tSymlink => .errSymlink
      | .tFile => .descriptor flags
      | .tRaw => .descriptor flags
      | _ => .errUnsupported

/-- Model of `File.Open` (file.go): write-mode takes the exclusive
descriptor lock, read-mode the shared one, and a request with neither
is rejected before the node is inspected. -/
def fileOpen (node : IpldNodeM) (flags : Flags) : OpenResult :=
  if flags.write then openCheck node flags
  else if flags.read then openCheck node flags
  else .errNoMode

/-- C8: `File.Open` fails exactly when no mode is requested or the
node's underlying type is neither plain-file nor raw-leaf content:
with neither `Read` nor `Write` it returns the no-mode error; with a
mode, it errs precisely on protobuf nodes whose unixfs type is not
`TFile`/`TRaw` (with the dedicated symlink error on `TSymlink`), and
otherwise returns a descriptor. -/
theorem fileOpen_spec (node : IpldNodeM) (flags : Flags) :
    (flags.read = false ∧ flags.write = false →
      fileOpen node flags = OpenResult.errNoMode)
    ∧ ((flags.read || flags.write) = true →
      ((fileOpen node flags).isErr = true
        ↔ (∃ d, node.shape = NodeShape.protoNode d
              ∧ d ≠ some UnixfsType.tFile ∧ d ≠ some UnixfsType.tRaw)))
    ∧ ((flags.read || flags.write) = true →
        node.shape = NodeShape.protoNode (some UnixfsType.tSymlink) →
        fileOpen node flags = OpenResult.errSymlink)
    ∧ ((fileOpen node flags).isErr = false →
        fileOpen node flags = OpenResult.descriptor flags) := by
  obtain ⟨shape, ver⟩ := node
  obtain ⟨r, w, y⟩ := flags
  rcases shape with d | _
  · rcases d with _ | t
    · cases r <;> cases w <;>
        simp [fileOpen, openCheck, OpenResult.isErr]
    · cases t <;> cases r <;> cases w <;>
        simp [fileOpen, openCheck, OpenResult.isErr]
  · cases r <;> cases w <;>
      simp [fileOpen, openCheck, OpenResult.isErr]

/-- C8 witness: the statement evaluated at a symlink node opened for
reading. -/
theorem fileOpen_spec_witness :
    ((Flags.read ⟨true, false, false⟩ = false ∧ Flags.write ⟨true, false, false⟩ = false →
      fileOpen ⟨NodeShape.protoNode (some UnixfsType.tSymlink), 0⟩ ⟨true, false, false⟩
        = OpenResult.errNoMode)
    ∧ ((Flags.read ⟨true, false, false⟩ || Flags.write ⟨true, false, false⟩) = true →
      ((fileOpen ⟨NodeShape.protoNode (some UnixfsType.tSymlink), 0⟩
          ⟨true, false, false⟩).isErr = true
        ↔ (∃ d, NodeShape.protoNode (some UnixfsType.tSymlink) = NodeShape.protoNode d
              ∧ d ≠ some UnixfsType.tFile ∧ d ≠ some UnixfsType.tRaw)))
    ∧ ((Flags.read ⟨true, false, false⟩ || Flags.write ⟨true, false, false⟩) = true →
        NodeShape.protoNode (some UnixfsType.tSymlink)
          = NodeShape.protoNode (some UnixfsType.tSymlink) →
        fileOpen ⟨NodeShape.protoNode (some UnixfsType.tSymlink), 0⟩ ⟨true, false, false⟩
          = OpenResult.errSymlink)
    ∧ ((fileOpen ⟨NodeShape.protoNode (some UnixfsType.tSymlink), 0⟩
          ⟨true, false, false⟩).isErr = false →
        fileOpen ⟨NodeShape.protoNode (some UnixfsType.tSymlink), 0⟩ ⟨true, false, false⟩
          = OpenResult.descriptor ⟨true, false, false⟩)) :=
  fileOpen_spec ⟨NodeShape.protoNode (some UnixfsType.tSymlink), 0⟩ ⟨true, false, false⟩

/-- The `File` structure as far as `NewFile` determines it: its name
and the `RawLeaves` field. -/
structure FileObj where
  name : String
  RawLeaves : Bool
deriving DecidableEq, Repr

/-- Model of `NewFile` (file.go): build the `File` with `RawLeaves`
off, then enable it when the node's CID prefix version is positive;
never fails. -/
def NewFile (name : String) (node : IpldNodeM) : Except String FileObj :=
  let fi : FileObj := { name := name, RawLeaves := false }
  let fi : FileObj := if node.cidVersion > 0 then { fi with RawLeaves := true } else fi
  .ok fi

/-- C9: `NewFile` always succeeds and the returned `File` has
`RawLeaves` set exactly when the node's CID prefix version is greater
than zero. -/
theorem newFile_rawLeaves (name : String) (node : IpldNodeM) :
    NewFile name node
      = .ok { name := name, RawLeaves := decide (0 < node.cidVersion) }
    ∧ (∀ fi : FileObj, NewFile name node = .ok fi →
        (fi.RawLeaves = true ↔ 0 < node.cidVersion)) := by
  by_cases hv : 0 < node.cidVersion
  · refine ⟨by simp [NewFile, hv], fun fi h => ?_⟩
    simp only [NewFile, if_pos hv, Except.ok.injEq] at h
    simp [← h, hv]
  · refine ⟨by simp [NewFile, hv], fun fi h => ?_⟩
    simp only [NewFile, if_neg hv, Except.ok.injEq] at h
    simp [← h, hv]

/-- C9 witness: `NewFile` evaluated at CID versions 1 and 0. -/
theorem newFile_rawLeaves_witness :
    (NewFile "a" ⟨NodeShape.rawNode, 1⟩
       = .ok { name := "a", RawLeaves := decide (0 < IpldNodeM.cidVersion ⟨NodeShape.rawNode, 1⟩) }
     ∧ (∀ fi : FileObj, NewFile "a" ⟨NodeShape.rawNode, 1⟩ = .ok fi →
         (fi.RawLeaves = true ↔ 0 < IpldNodeM.cidVersion ⟨NodeShape.rawNode, 1⟩)))
    ∧ (NewFile "b" ⟨NodeShape.rawNode, 0⟩
       = .ok { name := "b", RawLeaves := decide (0 < IpldNodeM.cidVersion ⟨NodeShape.rawNode, 0⟩) }
     ∧ (∀ fi : FileObj, NewFile "b" ⟨NodeShape.rawNode, 0⟩ = .ok fi →
         (fi.RawLeaves = true ↔ 0 < IpldNodeM.cidVersion ⟨NodeShape.rawNode, 0⟩))) :=
  ⟨newFile_rawLeaves "a" ⟨NodeShape.rawNode, 1⟩, newFile_rawLeaves "b" ⟨NodeShape.rawNode, 0⟩⟩

end GoMfs
